import Mathlib

/-!
Verification of the scheduling and session-lifecycle engine of the
whatsapp-bot-auth repository.

The JavaScript sources are shallowly embedded:

* `timezoneHelper.js` (weekday/business-hours calendar, the 19:00 / 20:00
  one-time reminder rules, the chained appointment-reminder time calculator);
* `operating-hours.js` (operating-hours calendar with Friday window,
  Shabbat and the Jewish-holiday list, used by the periodic sweep);
* `reminder-scheduler.js` (`getNextReminderStage` and the production
  `REMINDER_TIMING` tables, and the sweep eligibility criteria);
* `sessionManager.js` (`createSession`, `markCompleted`);
* `messageScheduler.js` (`scheduleMessage` time computation,
  `cancelScheduledMessage`, `cancelSessionMessages`,
  `processScheduledMessage` — the delivery worker);
* the `/api/bot/appointment-scheduled` webhook of the server file.

Wall-clock instants are modelled at minute granularity in the single fixed
region the program uses (spec: no cross-timezone conversion): a `DT` is a
day count since 1970-01-01 together with an hour and a minute.  Timestamp
columns are modelled as milliseconds (`Int`), related to `DT` by `DT.ms`.
Daylight-saving shifts are not modelled (no claim depends on them).
-/

/-- A local wall-clock instant: days since 1970-01-01 (which was a Thursday),
hour of day and minute of hour. -/
structure DT where
  day : Int
  hour : Nat
  minute : Nat
  deriving DecidableEq, Repr

namespace DT

/-- Luxon's `weekday`: Monday = 1 … Sunday = 7. -/
def luxonWeekday (t : DT) : Int := (t.day + 3) % 7 + 1

/-- JavaScript `Date.getDay()`: Sunday = 0 … Saturday = 6. -/
def jsGetDay (t : DT) : Int := (t.day + 4) % 7

/-- Luxon `plus({ days: n })` — keeps the time of day. -/
def plusDays (t : DT) (n : Int) : DT := ⟨t.day + n, t.hour, t.minute⟩

/-- Luxon `set({ hour, minute, second: 0, millisecond: 0 })` —
keeps the calendar day. -/
def setHM (t : DT) (h m : Nat) : DT := ⟨t.day, h, m⟩

/-- Milliseconds since the epoch (JavaScript `Date` arithmetic). -/
def ms (t : DT) : Int := ((t.day * 24 + (t.hour : Int)) * 60 + (t.minute : Int)) * 60000

/-- A well-formed wall-clock instant has its hour and minute in range. -/
def WF (t : DT) : Prop := t.hour < 24 ∧ t.minute < 60

instance : DecidablePred WF := fun t => by unfold WF; infer_instance

end DT

/-- Hinnant's `days_from_civil`: day count since 1970-01-01 of the civil date
`y-m-d` (proleptic Gregorian).  Used to place the holiday-list dates and the
concrete scenario dates on the `DT.day` axis. -/
def daysFromCivil (y m d : Int) : Int :=
  let y' := if m ≤ 2 then y - 1 else y
  let era := (if 0 ≤ y' then y' else y' - 399) / 400
  let yoe := y' - era * 400
  let mp := (m + 9) % 12
  let doy := (153 * mp + 2) / 5 + d - 1
  let doe := yoe * 365 + yoe / 4 - yoe / 100 + doy
  era * 146097 + doe - 719468

example : daysFromCivil 1970 1 1 = 0 := by decide
-- 2025-11-06 is a Thursday (luxon weekday 4), 2025-10-07 a Tuesday.
example : ((daysFromCivil 2025 11 6 + 3) % 7 + 1 : Int) = 4 := by decide
example : ((daysFromCivil 2025 10 7 + 3) % 7 + 1 : Int) = 2 := by decide

/-! ## timezoneHelper.js — scheduling calendar -/

/-- `BUSINESS_HOURS.start` (timezoneHelper.js). -/
def BUSINESS_START : Nat := 9

/-- `BUSINESS_HOURS.end` (timezoneHelper.js). -/
def BUSINESS_END : Nat := 20

/-- `isIsraeliWeekend`: Friday (5) or Saturday (6). -/
def isIsraeliWeekend (t : DT) : Bool :=
  decide (t.luxonWeekday = 5 ∨ t.luxonWeekday = 6)

/-- `isIsraeliWeekday`: `ISRAELI_WEEKDAYS.includes(weekday)`,
with `ISRAELI_WEEKDAYS = [SUNDAY, MONDAY, TUESDAY, WEDNESDAY, THURSDAY]`. -/
def isIsraeliWeekday (t : DT) : Bool :=
  decide (t.luxonWeekday ∈ [(7 : Int), 1, 2, 3, 4])

/-- `isWithinBusinessHours`: `hour >= hours.start && hour < hours.end`. -/
def isWithinBusinessHours (t : DT) (hs he : Nat) : Bool :=
  decide (hs ≤ t.hour ∧ t.hour < he)

/-- `isValidReminderTime`: Israeli weekday and within business hours. -/
def isValidReminderTime (t : DT) (hs he : Nat) : Bool :=
  isIsraeliWeekday t && isWithinBusinessHours t hs he

/-- `getNextValidBusinessTime`, with explicit fuel for the single recursive
call (the recursive call always receives a weekend instant, which returns in
the weekend branch, so the recursion depth is exactly two; see
`getNextValidBusinessTime_eq_aux` below, which shows any fuel ≥ 2 agrees). -/
def getNextValidBusinessTimeAux : Nat → DT → Nat → Nat → DT
  | 0, t, _, _ => t
  | fuel + 1, t, hs, he =>
    if isValidReminderTime t hs he then t
    else if isIsraeliWeekend t then
      let daysUntilSunday : Int := if t.luxonWeekday = 5 then 2 else 1
      (t.plusDays daysUntilSunday).setHM hs 0
    else if !isWithinBusinessHours t hs he then
      if t.hour < hs then t.setHM hs 0
      else if he ≤ t.hour then
        let nextTime := (t.plusDays 1).setHM hs 0
        if isIsraeliWeekend nextTime then
          getNextValidBusinessTimeAux fuel nextTime hs he
        else nextTime
      else t
    else t

/-- `getNextValidBusinessTime(fromTime)` with the default business hours. -/
def getNextValidBusinessTime (t : DT) : DT :=
  getNextValidBusinessTimeAux 2 t BUSINESS_START BUSINESS_END

/-- `calculate19pmReminderTime`: before 18:00 → 19:00 today,
otherwise 19:00 next calendar day. -/
def calculate19pmReminderTime (t : DT) : DT :=
  if t.hour < 18 then t.setHM 19 0
  else (t.plusDays 1).setHM 19 0

/-- `calculateVideoTestimonialTime`: the 19:00 reminder instant with the hour
set to 20:00 (same calendar day). -/
def calculateVideoTestimonialTime (t : DT) : DT :=
  (calculate19pmReminderTime t).setHM 20 0

/-- `calculateNextAppointmentReminderTime`: 19:00 the next day, adjusted to a
valid business time. -/
def calculateNextAppointmentReminderTime (t : DT) : DT :=
  getNextValidBusinessTime ((t.plusDays 1).setHM 19 0)

/-! ## operating-hours.js — sweep calendar -/

/-- `JEWISH_HOLIDAYS` (operating-hours.js), as day counts since 1970-01-01. -/
def JEWISH_HOLIDAYS : List Int :=
  [daysFromCivil 2025 4 13, daysFromCivil 2025 4 14,
   daysFromCivil 2025 4 19, daysFromCivil 2025 4 20,
   daysFromCivil 2025 6 2, daysFromCivil 2025 6 3,
   daysFromCivil 2025 9 23, daysFromCivil 2025 9 24,
   daysFromCivil 2025 10 2,
   daysFromCivil 2025 10 7, daysFromCivil 2025 10 8,
   daysFromCivil 2025 10 14, daysFromCivil 2025 10 15,
   daysFromCivil 2026 4 2, daysFromCivil 2026 4 3,
   daysFromCivil 2026 4 8, daysFromCivil 2026 4 9,
   daysFromCivil 2026 5 22, daysFromCivil 2026 5 23,
   daysFromCivil 2026 9 12, daysFromCivil 2026 9 13,
   daysFromCivil 2026 9 21,
   daysFromCivil 2026 9 26, daysFromCivil 2026 9 27,
   daysFromCivil 2026 10 3, daysFromCivil 2026 10 4]

/-- `isJewishHoliday`: the calendar day is in the holiday list. -/
def isJewishHoliday (t : DT) : Bool := decide (t.day ∈ JEWISH_HOLIDAYS)

/-- `isWithinOperatingHours` (operating-hours.js): holiday → blocked,
Saturday → blocked, Friday → 09:00–15:00, Sunday–Thursday → 09:00–21:00. -/
def isWithinOperatingHours (t : DT) : Bool :=
  if isJewishHoliday t then false
  else if t.jsGetDay = 6 then false
  else if t.jsGetDay = 5 then decide (9 ≤ t.hour ∧ t.hour < 15)
  else decide (9 ≤ t.hour ∧ t.hour < 21)

/-- `isWithinTimeWindow(startHour, endHour)`: within operating hours and
`startHour <= hour < endHour`. -/
def isWithinTimeWindow (hs he : Nat) (t : DT) : Bool :=
  isWithinOperatingHours t && decide (hs ≤ t.hour ∧ t.hour < he)

/-! ## reminder-scheduler.js — reminder policy -/

/-- One entry of `REMINDER_TIMING`: stage number, delay in minutes from the
stage-zero event, and an optional `[windowStart, windowEnd)` hour window. -/
structure TimingRule where
  stage : Nat
  delayMinutes : Int
  window : Option (Nat × Nat)
  deriving DecidableEq, Repr

/-- The two funnels of `REMINDER_TIMING`. -/
inductive ReminderType | form | appointment
  deriving DecidableEq, Repr

/-- `REMINDER_TIMING` in production mode (`REMINDER_TEST_MODE` unset). -/
def REMINDER_TIMING : ReminderType → List TimingRule
  | .form =>
    [⟨1, 60, none⟩, ⟨2, 1440, some (9, 12)⟩, ⟨3, 2880, some (18, 20)⟩]
  | .appointment =>
    [⟨1, 60, none⟩, ⟨2, 1440, none⟩, ⟨3, 2880, none⟩, ⟨4, 4320, none⟩]

/-- The loop body of `getNextReminderStage`, iterating the timing rules.
`minutesSince < rule.delayMinutes` over JavaScript floats is embedded as the
equivalent integer comparison on milliseconds. -/
def getNextReminderStageAux (now : DT) (sentAtMs : Int) (alreadySent : List Nat) :
    List TimingRule → Option Nat
  | [] => none
  | rule :: rest =>
    if rule.stage ∈ alreadySent then
      getNextReminderStageAux now sentAtMs alreadySent rest
    else if now.ms - sentAtMs < rule.delayMinutes * 60000 then
      getNextReminderStageAux now sentAtMs alreadySent rest
    else
      match rule.window with
      | some (ws, we) =>
        if isWithinTimeWindow ws we now then some rule.stage
        else getNextReminderStageAux now sentAtMs alreadySent rest
      | none => some rule.stage

/-- `getNextReminderStage(sentAt, alreadySent, type)`; a missing (`null`)
`sentAt` is `none` and returns `none` at once. -/
def getNextReminderStage (now : DT) (sentAt : Option Int) (alreadySent : List Nat)
    (type : ReminderType) : Option Nat :=
  match sentAt with
  | none => none
  | some sentAtMs => getNextReminderStageAux now sentAtMs alreadySent (REMINDER_TIMING type)

/-- The delay configured for a stage of a funnel (table lookup). -/
def delayOfStage (type : ReminderType) (stage : Nat) : Int :=
  (((REMINDER_TIMING type).find? (fun r => r.stage = stage)).map (·.delayMinutes)).getD 0

/-! ## Session store and scheduled-message table -/

/-- `sessions.status` (`CHECK (status IN ('active','completed','expired'))`). -/
inductive SessStatus | active | completed | expired
  deriving DecidableEq, Repr

/-- `scheduled_messages.status`
(`CHECK (status IN ('pending','sent','failed','cancelled'))`). -/
inductive MsgStatus | pending | sent | failed | cancelled
  deriving DecidableEq, Repr

/-- A row of the `sessions` table (columns the claims need; timestamps in
epoch milliseconds, nullable ones as `Option`). -/
structure Session where
  session_id : String
  phone_number : String
  chat_id : Option String
  status : SessStatus
  created_at : Int
  expires_at : Int
  completed_at : Option Int
  form_sent_at : Option Int
  form_completed_at : Option Int
  appointment_sent_at : Option Int
  appointment_scheduled_at : Option Int
  form_data : String
  deriving DecidableEq, Repr

/-- `MESSAGE_TYPES` (messageTemplates.js) — the closed set of message-type
tags carried by `scheduled_messages.message_type`. -/
inductive MessageType
  | introduction
  | chatbot_link
  | form_reminder_19pm
  | video_testimonial
  | form_summary
  | appointment_link
  | appointment_reminder_1
  | appointment_reminder_2
  | appointment_reminder_3
  | appointment_reminder_4
  | active_session_reminder
  deriving DecidableEq, Repr

/-- `messageType.startsWith('appointment_reminder')` over the closed tag set. -/
def MessageType.isAppointmentReminder : MessageType → Bool
  | .appointment_reminder_1 => true
  | .appointment_reminder_2 => true
  | .appointment_reminder_3 => true
  | .appointment_reminder_4 => true
  | _ => false

/-- A row of the `scheduled_messages` table (columns the claims need). -/
structure ScheduledMessage where
  id : Nat
  session_id : String
  message_type : MessageType
  status : MsgStatus
  deriving DecidableEq, Repr

/-- The persistent store: the `sessions` and `scheduled_messages` tables. -/
structure Store where
  sessions : List Session
  messages : List ScheduledMessage
  deriving DecidableEq, Repr

/-- The empty store. -/
def Store.empty : Store := ⟨[], []⟩

/-- `SELECT ... WHERE session_id = $1` (primary-key lookup). -/
def findSession (l : List Session) (sid : String) : Option Session :=
  l.find? (fun s => s.session_id = sid)

/-- `SELECT ... WHERE id = $1` (primary-key lookup). -/
def findMsg (l : List ScheduledMessage) (i : Nat) : Option ScheduledMessage :=
  l.find? (fun m => m.id = i)

/-- The `messageTypePattern` arguments the repository passes to
`cancelSessionMessages`: `'%'` (the default), `'form_reminder%'`,
`'video_testimonial'` and `'appointment_reminder%'`. -/
inductive LikePattern
  | all
  | formReminders
  | videoTestimonial
  | appointmentReminders
  deriving DecidableEq, Repr

/-- SQL `message_type LIKE pattern`, evaluated over the closed tag set:
`'%'` matches everything, `'form_reminder%'` matches exactly
`form_reminder_19pm`, `'video_testimonial'` matches itself, and
`'appointment_reminder%'` matches the four appointment reminders. -/
def likeMatch (pattern : LikePattern) (t : MessageType) : Bool :=
  match pattern with
  | .all => true
  | .formReminders => t = .form_reminder_19pm
  | .videoTestimonial => t = .video_testimonial
  | .appointmentReminders => t.isAppointmentReminder

/-! ## messageScheduler.js — cancellation and the delivery worker -/

/-- `cancelScheduledMessage(scheduledMessageId)`: read the row; refuse when it
is absent or its status is not `'pending'`; otherwise set its status to
`'cancelled'` (the Bull-queue side has no observable effect on the store).
Returns the success flag and the updated store. -/
def cancelScheduledMessage (i : Nat) (st : Store) : Bool × Store :=
  match findMsg st.messages i with
  | none => (false, st)
  | some m =>
    if m.status ≠ .pending then (false, st)
    else
      (true,
       { st with
         messages := st.messages.map fun m' =>
           if m'.id = i then { m' with status := .cancelled } else m' })

/-- `cancelSessionMessages(sessionId, messageTypePattern)`: select the ids of
the session's pending rows whose type matches the pattern, then cancel each
one in turn; returns the number cancelled and the updated store. -/
def cancelSessionMessages (sid : String) (pattern : LikePattern) (st : Store) :
    Nat × Store :=
  let selected :=
    (st.messages.filter fun m =>
      m.session_id = sid && m.status = MsgStatus.pending
        && likeMatch pattern m.message_type).map (·.id)
  selected.foldl
    (fun acc i =>
      let r := cancelScheduledMessage i acc.2
      (if r.1 then acc.1 + 1 else acc.1, r.2))
    (0, st)

/-- Result of the delivery worker on one job. -/
inductive WorkerResult
  | notFound
  | skippedCancelled
  | skippedSessionNotCompleted
  | skippedSessionNotActive
  | sent
  deriving DecidableEq, Repr

/-- `processScheduledMessage` (the delivery worker): re-read the job row;
skip when its persisted status is `'cancelled'`; re-read the owning session's
status; appointment-funnel types require `'completed'` and the two
form-funnel types require `'active'` (marking the job cancelled otherwise);
then send and mark the row `'sent'`. -/
def processScheduledMessage (i : Nat) (st : Store) : WorkerResult × Store :=
  match findMsg st.messages i with
  | none => (.notFound, st)
  | some m =>
    if m.status = .cancelled then (.skippedCancelled, st)
    else
      let sessionStatus := (findSession st.sessions m.session_id).map (·.status)
      let cancelRow : Store :=
        { st with
          messages := st.messages.map fun m' =>
            if m'.id = i then { m' with status := .cancelled } else m' }
      if m.message_type.isAppointmentReminder then
        if sessionStatus ≠ some .completed then
          (.skippedSessionNotCompleted, cancelRow)
        else
          (.sent,
           { st with
             messages := st.messages.map fun m' =>
               if m'.id = i then { m' with status := .sent } else m' })
      else if m.message_type = .form_reminder_19pm
          ∨ m.message_type = .video_testimonial then
        if sessionStatus ≠ some .active then
          (.skippedSessionNotActive, cancelRow)
        else
          (.sent,
           { st with
             messages := st.messages.map fun m' =>
               if m'.id = i then { m' with status := .sent } else m' })
      else
        (.sent,
         { st with
           messages := st.messages.map fun m' =>
             if m'.id = i then { m' with status := .sent } else m' })

/-! ## sessionManager.js — session lifecycle -/

/-- The `SET` clause of `markCompleted`, applied to a row when its
`session_id` matches. -/
def markCompletedUpdate (now : Int) (formData : String) (sid : String) (s : Session) : Session :=
  if s.session_id = sid then
    { s with
      status := .completed
      completed_at := some now
      form_completed_at := some now
      appointment_sent_at := some now
      form_data := formData }
  else s

/-- `markCompleted(sessionId, formData)`: `UPDATE sessions SET status =
'completed', completed_at = form_completed_at = appointment_sent_at = now,
form_data = $2 WHERE session_id = $1 RETURNING *`; `'Session not found'` when
no row matches.  (`clearPendingUser` touches only the in-process cache map,
which is outside the persisted store.) -/
def markCompleted (now : Int) (sid : String) (formData : String) (st : Store) :
    Except String (Session × Store) :=
  let updated := st.sessions.map (markCompletedUpdate now formData sid)
  match findSession updated sid with
  | none => .error "Session not found"
  | some s => .ok (s, { st with sessions := updated })

/-- The inputs of one `createSession(phoneNumber, chatId)` call: the wall
clock at the call and the freshly generated session id. -/
structure CreateInput where
  now : Int
  phone : String
  chatId : Option String
  newId : String
  deriving DecidableEq, Repr

/-- The `UPDATE ... SET status = 'expired' WHERE phone_number = $1 AND
status = 'active'` clause of `createSession`, applied to one row. -/
def expireUpdate (phone : String) (s : Session) : Session :=
  if s.phone_number = phone && s.status = SessStatus.active then
    { s with status := .expired }
  else s

/-- The fresh `'active'` row inserted by `createSession`: `expires_at =
now + 24h`, `form_sent_at = NOW()`. -/
def newSessionRecord (inp : CreateInput) : Session :=
  { session_id := inp.newId
    phone_number := inp.phone
    chat_id := inp.chatId
    status := .active
    created_at := inp.now
    expires_at := inp.now + 24 * 60 * 60 * 1000
    completed_at := none
    form_sent_at := some inp.now
    form_completed_at := none
    appointment_sent_at := none
    appointment_scheduled_at := none
    form_data := "{}" }

/-- `createSession`: select the recipient's active sessions, cancel all their
scheduled messages (default pattern `'%'`), mark those sessions `'expired'`,
and insert the fresh `'active'` session — all before the transaction
commits. -/
def createSession (inp : CreateInput) (st : Store) : Store :=
  let activeIds :=
    (st.sessions.filter fun s =>
      s.phone_number = inp.phone && s.status = SessStatus.active).map (·.session_id)
  let st1 := activeIds.foldl (fun acc sid => (cancelSessionMessages sid .all acc).2) st
  { sessions := st1.sessions.map (expireUpdate inp.phone) ++ [newSessionRecord inp],
    messages := st1.messages }

/-! ## The appointment-scheduled webhook and the sweep -/

/-- `/api/bot/appointment-scheduled` with a `session_id`: `UPDATE sessions
SET appointment_scheduled_at = NOW(), status = 'completed' WHERE session_id =
$1 RETURNING session_id, phone_number`. -/
def markAppointmentScheduledById (now : Int) (sid : String) (st : Store) :
    Option (String × String) × Store :=
  let updated := st.sessions.map fun s =>
    if s.session_id = sid then
      { s with appointment_scheduled_at := some now, status := .completed }
    else s
  ((findSession updated sid).map fun s => (s.session_id, s.phone_number),
   { st with sessions := updated })

/-- `/api/bot/appointment-scheduled` with only a `phone`: update the most
recent session of that phone that has no `appointment_scheduled_at` yet. -/
def markAppointmentScheduledByPhone (now : Int) (phone : String) (st : Store) :
    Option (String × String) × Store :=
  let candidates := st.sessions.filter fun s =>
    s.phone_number = phone && s.appointment_scheduled_at = none
  let target := candidates.foldl
    (fun acc s =>
      match acc with
      | none => some s
      | some best => if best.created_at < s.created_at then some s else some best)
    none
  match target with
  | none => (none, st)
  | some tgt =>
    let r := markAppointmentScheduledById now tgt.session_id st
    r

/-- The row filter of `checkAppointmentReminders`: `status = 'completed' AND
appointment_sent_at IS NOT NULL AND appointment_scheduled_at IS NULL AND
expires_at > NOW()`. -/
def appointmentSweepEligible (now : Int) (s : Session) : Bool :=
  s.status = SessStatus.completed && s.appointment_sent_at ≠ none
    && s.appointment_scheduled_at = none && now < s.expires_at

/-! ## messageScheduler.js — orchestrated send times -/

/-- The `scheduledFor` instant of `schedule19pmReminder`: the 19:00 rule
adjusted by `getNextValidBusinessTime`. -/
def schedule19pmReminderTime (firstMessageTime : DT) : DT :=
  getNextValidBusinessTime (calculate19pmReminderTime firstMessageTime)

/-- The `scheduledFor` instant of `scheduleVideoTestimonial`: the 20:00 rule
adjusted by `getNextValidBusinessTime`. -/
def scheduleVideoTestimonialTime (firstMessageTime : DT) : DT :=
  getNextValidBusinessTime (calculateVideoTestimonialTime firstMessageTime)

/-- The four `scheduledFor` instants of `scheduleAppointmentReminders`: each
stage's time is computed by `calculateNextAppointmentReminderTime` from the
previous stage's already-resolved time. -/
def scheduleAppointmentReminderTimes (appointmentLinkSentTime : DT) : List DT :=
  let reminder1Time := calculateNextAppointmentReminderTime appointmentLinkSentTime
  let reminder2Time := calculateNextAppointmentReminderTime reminder1Time
  let reminder3Time := calculateNextAppointmentReminderTime reminder2Time
  let reminder4Time := calculateNextAppointmentReminderTime reminder3Time
  [reminder1Time, reminder2Time, reminder3Time, reminder4Time]

/-! ## Concrete instants used by scenarios and counterexamples -/

/-- 2025-10-07, a Tuesday in `JEWISH_HOLIDAYS` (Sukkot day 1). -/
def holidayTue : Int := daysFromCivil 2025 10 7

/-- 2025-11-03, a Monday with no listed holiday. -/
def monNov3 : Int := daysFromCivil 2025 11 3

/-- 2025-11-04, a Tuesday with no listed holiday. -/
def tueNov4 : Int := daysFromCivil 2025 11 4

/-- 2025-11-06, a Thursday. -/
def thuNov6 : Int := daysFromCivil 2025 11 6

/-- 2025-11-07, a Friday. -/
def friNov7 : Int := daysFromCivil 2025 11 7

/-- 2025-11-09, a Sunday. -/
def sunNov9 : Int := daysFromCivil 2025 11 9

/-- 2025-11-10, a Monday. -/
def monNov10 : Int := daysFromCivil 2025 11 10

/-- 2025-11-11, a Tuesday. -/
def tueNov11 : Int := daysFromCivil 2025 11 11

/-- 2025-11-12, a Wednesday. -/
def wedNov12 : Int := daysFromCivil 2025 11 12

/-! ## Reminder-policy soundness (C5, C10) -/

/-- Any stage returned by the rule loop comes from a rule of the list whose
stage is not already sent and whose delay has elapsed. -/
theorem getNextReminderStageAux_sound (now : DT) (sentAtMs : Int) (sent : List Nat) :
    ∀ (rules : List TimingRule) (s : Nat),
      getNextReminderStageAux now sentAtMs sent rules = some s →
      ∃ r ∈ rules, r.stage = s ∧ s ∉ sent ∧ r.delayMinutes * 60000 ≤ now.ms - sentAtMs
        ∧ ∀ ws we, r.window = some (ws, we) → isWithinTimeWindow ws we now = true := by
  intro rules
  induction rules with
  | nil => intro s h; simp [getNextReminderStageAux] at h
  | cons rule rest ih =>
    intro s h
    rw [getNextReminderStageAux] at h
    by_cases h1 : rule.stage ∈ sent
    · rw [if_pos h1] at h
      obtain ⟨r, hr, h2⟩ := ih s h
      exact ⟨r, List.mem_cons_of_mem _ hr, h2⟩
    · rw [if_neg h1] at h
      by_cases h2 : now.ms - sentAtMs < rule.delayMinutes * 60000
      · rw [if_pos h2] at h
        obtain ⟨r, hr, h3⟩ := ih s h
        exact ⟨r, List.mem_cons_of_mem _ hr, h3⟩
      · rw [if_neg h2] at h
        split at h
        · rename_i ws we hw
          by_cases h3 : isWithinTimeWindow ws we now = true
          · rw [if_pos h3] at h
            obtain rfl : rule.stage = s := Option.some.inj h
            refine ⟨rule, List.mem_cons_self _ _, rfl, h1, le_of_not_lt h2, ?_⟩
            intro ws' we' hww
            rw [hw] at hww
            obtain ⟨rfl, rfl⟩ : ws = ws' ∧ we = we' := by
              have := Option.some.inj hww
              exact ⟨congrArg Prod.fst this, congrArg Prod.snd this⟩
            exact h3
          · rw [if_neg h3] at h
            obtain ⟨r, hr, h4⟩ := ih s h
            exact ⟨r, List.mem_cons_of_mem _ hr, h4⟩
        · rename_i hw
          obtain rfl : rule.stage = s := Option.some.inj h
          refine ⟨rule, List.mem_cons_self _ _, rfl, h1, le_of_not_lt h2, ?_⟩
          intro ws we hww
          rw [hw] at hww
          exact absurd hww (by simp)

/-- C5.  `getNextReminderStage` never returns a stage already in
`alreadySent`, and never returns a stage whose configured delay from the
stage-zero time has not yet elapsed at the evaluation instant. -/
theorem getNextReminderStage_skips_sent_and_unelapsed
    (ty : ReminderType) (now : DT) (sentAtMs : Int) (sent : List Nat) (s : Nat)
    (h : getNextReminderStage now (some sentAtMs) sent ty = some s) :
    s ∉ sent ∧ delayOfStage ty s * 60000 ≤ now.ms - sentAtMs := by
  rw [getNextReminderStage] at h
  obtain ⟨r, hr, hst, hns, hd, -⟩ := getNextReminderStageAux_sound now sentAtMs sent _ s h
  refine ⟨hns, ?_⟩
  cases ty with
  | form =>
    simp only [REMINDER_TIMING, List.mem_cons, List.not_mem_nil, or_false] at hr
    rcases hr with rfl | rfl | rfl <;> subst hst <;> exact hd
  | appointment =>
    simp only [REMINDER_TIMING, List.mem_cons, List.not_mem_nil, or_false] at hr
    rcases hr with rfl | rfl | rfl | rfl <;> subst hst <;> exact hd

/-- The instant of the C5 witness: Monday 2025-11-03 at 10:00. -/
def c5Now : DT := ⟨monNov3, 10, 0⟩

/-- C5 witness: with the stage-zero event 61 minutes earlier and nothing yet
sent, the policy returns stage 1, which is unsent and whose 60-minute delay
has elapsed. -/
theorem getNextReminderStage_skips_sent_and_unelapsed_witness :
    1 ∉ ([] : List Nat)
      ∧ delayOfStage .form 1 * 60000 ≤ c5Now.ms - (c5Now.ms - 61 * 60000) :=
  getNextReminderStage_skips_sent_and_unelapsed .form c5Now
    (c5Now.ms - 61 * 60000) [] 1 (by decide)

/-- C10.  A `null` stage-zero timestamp makes the reminder policy return
`none` at once, for every funnel and every already-sent set: a session whose
stage-zero event never happened is never sent a reminder. -/
theorem getNextReminderStage_none_of_null_sentAt :
    ∀ (now : DT) (sent : List Nat) (ty : ReminderType),
      getNextReminderStage now none sent ty = none :=
  fun _ _ _ => rfl

/-! ## Window-skip behaviour of the rule loop (C6) -/

/-- The evaluation instant of the C6 counterexample: Monday 2025-11-03
at 18:30 (inside operating hours, outside the 09–12 window of form stage 2,
inside the 18–20 window of form stage 3). -/
def c6Now : DT := ⟨monNov3, 18, 30⟩

/-- The stage-zero timestamp of the C6 counterexample: exactly 2880 minutes
before `c6Now`. -/
def c6SentAt : Int := c6Now.ms - 2880 * 60000

/-- C6 counterexample: with stage 1 already sent, stage 2 unsent, its delay
elapsed and the instant outside its 09–12 window, the loop does advance past
stage 2 and returns the later stage 3 ahead of it. -/
theorem getNextReminderStage_advances_past_windowed_stage :
    2 ∉ [1]
      ∧ (1440 : Int) * 60000 ≤ c6Now.ms - c6SentAt
      ∧ isWithinTimeWindow 9 12 c6Now = false
      ∧ getNextReminderStage c6Now (some c6SentAt) [1] .form = some 3 := by
  refine ⟨by decide, by decide, by decide, by decide⟩

/-- C6 amended: skipping form stage 2 for its window never returns stage 2
at that instant and does not mark it sent — on any later sweep inside the
window (stage 1 sent, delay elapsed) stage 2 is returned — but within the
same sweep the loop continues past it, so a later stage may be returned
ahead of it (as the counterexample shows). -/
theorem formStage2_window_skip_remains_eligible
    (now now' : DT) (sentAtMs : Int) (sent : List Nat)
    (hnot : 2 ∉ sent)
    (hout : isWithinTimeWindow 9 12 now = false) :
    getNextReminderStage now (some sentAtMs) sent .form ≠ some 2
      ∧ (1 ∈ sent → (1440 : Int) * 60000 ≤ now'.ms - sentAtMs →
          isWithinTimeWindow 9 12 now' = true →
          getNextReminderStage now' (some sentAtMs) sent .form = some 2) := by
  constructor
  · intro h
    obtain ⟨r, hr, hst, -, -, hwin⟩ :=
      getNextReminderStageAux_sound now sentAtMs sent (REMINDER_TIMING .form) 2 h
    simp only [REMINDER_TIMING, List.mem_cons, List.not_mem_nil, or_false] at hr
    rcases hr with rfl | rfl | rfl
    · exact absurd hst (by decide)
    · -- stage 2 can only be returned from inside its 09–12 window
      exact absurd (hwin 9 12 rfl) (by simp [hout])
    · exact absurd hst (by decide)
  · intro h1mem hdel hwin
    rw [getNextReminderStage, REMINDER_TIMING]
    rw [getNextReminderStageAux, if_pos (by simpa using h1mem)]
    rw [getNextReminderStageAux, if_neg (by simpa using hnot),
      if_neg (by simpa using not_lt.mpr hdel)]
    simp only [hwin, if_true]

/-- The later sweep instant of the C6 witness: Tuesday 2025-11-04 at 10:00
(inside operating hours and inside the 09–12 window). -/
def c6NowLater : DT := ⟨tueNov4, 10, 0⟩

/-- C6 witness: at Monday 18:30 stage 2 is not returned; at Tuesday 10:00,
with stage 1 sent, the same stage-zero time yields stage 2. -/
theorem formStage2_window_skip_remains_eligible_witness :
    getNextReminderStage c6Now (some c6SentAt) [1] .form ≠ some 2
      ∧ (1 ∈ [1] → (1440 : Int) * 60000 ≤ c6NowLater.ms - c6SentAt →
          isWithinTimeWindow 9 12 c6NowLater = true →
          getNextReminderStage c6NowLater (some c6SentAt) [1] .form = some 2) :=
  formStage2_window_skip_remains_eligible c6Now c6NowLater c6SentAt [1]
    (by decide) (by decide)

/-! ## The two one-time sends (C7) -/

/-- The trigger instant of the C7 scenario: Thursday 2025-11-06 at 17:30. -/
def c7Trigger : DT := ⟨thuNov6, 17, 30⟩

/-- C7.  At a Thursday 17:30 trigger, the 19:00 rule and the 20:00 rule
produce Thursday 19:00 and Thursday 20:00, and the enqueued 19:00 reminder is
indeed Thursday 19:00 — but the enqueued second message is NOT one hour after
the first on the same day: `getNextValidBusinessTime` rejects hour 20
(`hour < 20` fails) and pushes the video testimonial to Sunday 09:00. -/
theorem videoTestimonial_not_one_hour_after_19pm :
    calculate19pmReminderTime c7Trigger = ⟨thuNov6, 19, 0⟩
      ∧ calculateVideoTestimonialTime c7Trigger = ⟨thuNov6, 20, 0⟩
      ∧ schedule19pmReminderTime c7Trigger = ⟨thuNov6, 19, 0⟩
      ∧ scheduleVideoTestimonialTime c7Trigger = ⟨sunNov9, 9, 0⟩
      ∧ scheduleVideoTestimonialTime c7Trigger ≠ ⟨thuNov6, 20, 0⟩ := by
  refine ⟨by decide, by decide, by decide, by decide, by decide⟩

/-! ## The chained appointment-reminder schedule (C9) -/

/-- C9.  Each appointment-reminder stage's fire time is derived from the
previous stage's already-resolved fire time; in the concrete scenario the
stage-1 candidate (Friday 19:00) is blocked and shifts to Sunday 09:00, and
stages 2–4 are computed from the shifted time (Monday/Tuesday/Wednesday
19:00) — not from the unshifted candidate, which would have given a
different stage-2 time. -/
theorem appointmentReminders_chained_from_resolved_times :
    (∀ t0 : DT,
      scheduleAppointmentReminderTimes t0 =
        [calculateNextAppointmentReminderTime t0,
         calculateNextAppointmentReminderTime (calculateNextAppointmentReminderTime t0),
         calculateNextAppointmentReminderTime (calculateNextAppointmentReminderTime
           (calculateNextAppointmentReminderTime t0)),
         calculateNextAppointmentReminderTime (calculateNextAppointmentReminderTime
           (calculateNextAppointmentReminderTime (calculateNextAppointmentReminderTime t0)))])
      ∧ isValidReminderTime ⟨friNov7, 19, 0⟩ BUSINESS_START BUSINESS_END = false
      ∧ scheduleAppointmentReminderTimes ⟨thuNov6, 18, 0⟩ =
          [⟨sunNov9, 9, 0⟩, ⟨monNov10, 19, 0⟩, ⟨tueNov11, 19, 0⟩, ⟨wedNov12, 19, 0⟩]
      ∧ calculateNextAppointmentReminderTime ⟨friNov7, 19, 0⟩ ≠ ⟨monNov10, 19, 0⟩ := by
  exact ⟨fun t0 => rfl, by decide, by decide, by decide⟩

/-! ## The scheduling calendar ignores holidays (C4) -/

/-- C4 counterexample: 2025-10-07 is a listed holiday (a Tuesday), yet
`getNextValidBusinessTime` returns 10:00 of that day unchanged — an instant
on a blocked day, and not strictly later than the input. -/
theorem getNextValidBusinessTime_ignores_holidays :
    isJewishHoliday ⟨holidayTue, 10, 0⟩ = true
      ∧ isWithinOperatingHours ⟨holidayTue, 10, 0⟩ = false
      ∧ getNextValidBusinessTime ⟨holidayTue, 10, 0⟩ = ⟨holidayTue, 10, 0⟩ := by
  refine ⟨by decide, by decide, by decide⟩

/-! ## The scheduling calendar: helper characterisations -/

/-- `isIsraeliWeekend` in terms of the day count. -/
theorem isIsraeliWeekend_iff (u : DT) :
    isIsraeliWeekend u = true ↔ ((u.day + 3) % 7 = 4 ∨ (u.day + 3) % 7 = 5) := by
  simp [isIsraeliWeekend, DT.luxonWeekday]
  omega

/-- `isValidReminderTime` with the default hours, in terms of the day count
and hour. -/
theorem isValidReminderTime_iff (u : DT) :
    isValidReminderTime u 9 20 = true ↔
      ((u.day + 3) % 7 ≠ 4 ∧ (u.day + 3) % 7 ≠ 5 ∧ 9 ≤ u.hour ∧ u.hour < 20) := by
  simp [isValidReminderTime, isIsraeliWeekday, isWithinBusinessHours, DT.luxonWeekday]
  omega

/-- A weekend instant is never a valid reminder time. -/
theorem weekend_not_valid (u : DT) (h : isIsraeliWeekend u = true) :
    isValidReminderTime u 9 20 = false := by
  rw [isIsraeliWeekend_iff] at h
  rw [← Bool.not_eq_true, isValidReminderTime_iff]
  omega

/-- On a weekend instant the adjuster takes the weekend branch regardless of
the remaining fuel. -/
theorem getNextValidBusinessTimeAux_weekend (k : Nat) (u : DT)
    (h : isIsraeliWeekend u = true) :
    getNextValidBusinessTimeAux (k + 1) u 9 20 =
      (u.plusDays (if u.luxonWeekday = 5 then 2 else 1)).setHM 9 0 := by
  rw [getNextValidBusinessTimeAux, if_neg (by simp [weekend_not_valid u h]), if_pos h]

/-- Any fuel of at least 2 computes the same result as fuel 2: the recursion
of `getNextValidBusinessTime` has depth at most two. -/
theorem getNextValidBusinessTime_eq_aux (n : Nat) (t : DT) :
    getNextValidBusinessTimeAux (n + 2) t 9 20 = getNextValidBusinessTimeAux 2 t 9 20 := by
  rw [show n + 2 = (n + 1) + 1 from rfl, show (2 : Nat) = 1 + 1 from rfl]
  rw [getNextValidBusinessTimeAux]
  conv_rhs => rw [getNextValidBusinessTimeAux]
  split_ifs <;> rfl

/-- C4 amended.  For every well-formed instant that is invalid in the
Sunday–Thursday 09:00–20:00 scheduling calendar, `getNextValidBusinessTime`
returns a strictly later instant that is valid in that calendar (rolling
forward when the naive next-day candidate is itself a weekend).  Listed
holidays are not part of this calendar: they gate only the sweep, as the
counterexample shows. -/
theorem getNextValidBusinessTime_strictly_later_and_valid (t : DT)
    (hh : t.hour < 24) (hm : t.minute < 60)
    (hinv : isValidReminderTime t BUSINESS_START BUSINESS_END = false) :
    t.ms < (getNextValidBusinessTime t).ms
      ∧ isValidReminderTime (getNextValidBusinessTime t) BUSINESS_START BUSINESS_END = true := by
  have hinv' : isValidReminderTime t 9 20 = false := hinv
  have hinvp : ¬ ((t.day + 3) % 7 ≠ 4 ∧ (t.day + 3) % 7 ≠ 5 ∧ 9 ≤ t.hour ∧ t.hour < 20) := by
    rw [← isValidReminderTime_iff]
    simp [hinv']
  rw [show getNextValidBusinessTime t = getNextValidBusinessTimeAux 2 t 9 20 from rfl]
  rw [show (2 : Nat) = 1 + 1 from rfl]
  rw [getNextValidBusinessTimeAux, if_neg (by simp [hinv'])]
  by_cases hwe : isIsraeliWeekend t = true
  · rw [if_pos hwe]
    rw [isIsraeliWeekend_iff] at hwe
    by_cases h5 : t.luxonWeekday = 5
    · rw [if_pos h5]
      constructor
      · simp only [DT.ms, DT.plusDays, DT.setHM]
        omega
      · rw [show BUSINESS_START = 9 from rfl, show BUSINESS_END = 20 from rfl,
          isValidReminderTime_iff]
        simp only [DT.plusDays, DT.setHM]
        omega
    · rw [if_neg h5]
      simp only [DT.luxonWeekday] at h5
      constructor
      · simp only [DT.ms, DT.plusDays, DT.setHM]
        omega
      · rw [show BUSINESS_START = 9 from rfl, show BUSINESS_END = 20 from rfl,
          isValidReminderTime_iff]
        simp only [DT.plusDays, DT.setHM]
        omega
  · rw [if_neg hwe]
    have hwd : ¬(((t.day + 3) % 7 = 4) ∨ ((t.day + 3) % 7 = 5)) := by
      rw [← isIsraeliWeekend_iff]
      exact hwe
    have hhr : ¬(9 ≤ t.hour ∧ t.hour < 20) := by omega
    have hbsh : isWithinBusinessHours t 9 20 = false := by
      simp [isWithinBusinessHours]
      omega
    rw [if_pos (by simp [hbsh])]
    by_cases hlt : t.hour < 9
    · rw [if_pos hlt]
      constructor
      · simp only [DT.ms, DT.setHM]
        omega
      · rw [show BUSINESS_START = 9 from rfl, show BUSINESS_END = 20 from rfl,
          isValidReminderTime_iff]
        simp only [DT.setHM]
        omega
    · rw [if_neg hlt, if_pos (show 20 <= t.hour by omega)]
      dsimp only
      by_cases hwnt : isIsraeliWeekend ((t.plusDays 1).setHM 9 0) = true
      · rw [if_pos hwnt, getNextValidBusinessTimeAux_weekend 0 _ hwnt]
        rw [isIsraeliWeekend_iff] at hwnt
        simp only [DT.plusDays, DT.setHM] at hwnt ⊢
        by_cases h5 : DT.luxonWeekday ⟨t.day + 1, 9, 0⟩ = 5
        · rw [if_pos h5]
          simp only [DT.luxonWeekday] at h5
          constructor
          · simp only [DT.ms]
            omega
          · rw [show BUSINESS_START = 9 from rfl, show BUSINESS_END = 20 from rfl,
              isValidReminderTime_iff]
            simp only
            omega
        · rw [if_neg h5]
          simp only [DT.luxonWeekday] at h5
          constructor
          · simp only [DT.ms]
            omega
          · rw [show BUSINESS_START = 9 from rfl, show BUSINESS_END = 20 from rfl,
              isValidReminderTime_iff]
            simp only
            omega
      · rw [if_neg hwnt]
        have hwnt' : ¬(((t.day + 1 + 3) % 7 = 4) ∨ ((t.day + 1 + 3) % 7 = 5)) := by
          intro hc
          exact hwnt ((isIsraeliWeekend_iff ((t.plusDays 1).setHM 9 0)).mpr
            (by simpa [DT.plusDays, DT.setHM] using hc))
        constructor
        · simp only [DT.ms, DT.plusDays, DT.setHM]
          omega
        · rw [show BUSINESS_START = 9 from rfl, show BUSINESS_END = 20 from rfl,
            isValidReminderTime_iff]
          simp only [DT.plusDays, DT.setHM]
          omega

/-- 2025-11-08, a Saturday. -/
def satNov8 : Int := daysFromCivil 2025 11 8

/-- C4 amended witness: from Saturday 2025-11-08 12:00 the next valid
business time is strictly later and valid. -/
theorem getNextValidBusinessTime_strictly_later_and_valid_witness :
    DT.ms ⟨satNov8, 12, 0⟩ < (getNextValidBusinessTime ⟨satNov8, 12, 0⟩).ms
      ∧ isValidReminderTime (getNextValidBusinessTime ⟨satNov8, 12, 0⟩)
          BUSINESS_START BUSINESS_END = true :=
  getNextValidBusinessTime_strictly_later_and_valid ⟨satNov8, 12, 0⟩
    (by decide) (by decide) (by decide)

/-! ## The appointment-scheduled webhook does not stop enqueued reminders (C1) -/

/-- A completed session awaiting appointment booking. -/
def c1Session : Session :=
  { session_id := "s1"
    phone_number := "972500000001"
    chat_id := some "972500000001@s.whatsapp.net"
    status := .completed
    created_at := 0
    expires_at := 86400000
    completed_at := some 500
    form_sent_at := some 0
    form_completed_at := some 500
    appointment_sent_at := some 500
    appointment_scheduled_at := none
    form_data := "{}" }

/-- An appointment-reminder job enqueued for that session, still pending. -/
def c1Msg : ScheduledMessage :=
  { id := 1, session_id := "s1", message_type := .appointment_reminder_2, status := .pending }

/-- The store of the C1 failing input. -/
def c1Store : Store := ⟨[c1Session], [c1Msg]⟩

/-- C1.  After the appointment-scheduled webhook stamps
`appointment_scheduled_at` (and sets the status to `'completed'`), the sweep
no longer selects the session — but the already-enqueued appointment-reminder
job still passes the Delivery Worker's pre-send recheck, which only requires
session status `'completed'` and a non-cancelled job row, and is dispatched:
the worker sends instead of skipping. -/
theorem appointmentScheduled_enqueued_reminder_still_sent :
    ((findSession (markAppointmentScheduledById 600 "s1" c1Store).2.sessions "s1").map
        fun s => (s.appointment_scheduled_at, s.status, appointmentSweepEligible 700 s))
      = some (some 600, .completed, false)
      ∧ (processScheduledMessage 1 (markAppointmentScheduledById 600 "s1" c1Store).2).1
          = .sent := by
  refine ⟨by decide, by decide⟩

/-! ## markCompleted re-stamps timestamps on every call (C2) -/

/-- An active session with the form link sent. -/
def c2Session : Session :=
  { session_id := "s1"
    phone_number := "972500000001"
    chat_id := none
    status := .active
    created_at := 0
    expires_at := 86400000
    completed_at := none
    form_sent_at := some 0
    form_completed_at := none
    appointment_sent_at := none
    appointment_scheduled_at := none
    form_data := "{}" }

/-- The store of the C2 counterexample. -/
def c2Store : Store := ⟨[c2Session], []⟩

/-- `markCompleted` called once, at time 100. -/
def c2AfterOnce : Except String (Session × Store) := markCompleted 100 "s1" "{}" c2Store

/-- `markCompleted` called a second time, at time 200. -/
def c2AfterTwice : Except String (Session × Store) :=
  match c2AfterOnce with
  | .ok (_, st1) => markCompleted 200 "s1" "{}" st1
  | .error e => .error e

/-- C2 counterexample: the second `markCompleted` call succeeds but
re-stamps `completed_at`, `form_completed_at` and `appointment_sent_at` with
its own call time, so calling twice does not yield the same persisted
timestamps as calling once. -/
theorem markCompleted_twice_restamps_timestamps :
    (c2AfterOnce.toOption.map fun p =>
        (p.1.completed_at, p.1.form_completed_at, p.1.appointment_sent_at))
      = some (some 100, some 100, some 100)
      ∧ (c2AfterTwice.toOption.map fun p =>
          (p.1.completed_at, p.1.form_completed_at, p.1.appointment_sent_at))
        = some (some 200, some 200, some 200)
      ∧ (c2AfterTwice.toOption.map fun p => p.1.completed_at)
          ≠ (c2AfterOnce.toOption.map fun p => p.1.completed_at) := by
  refine ⟨by decide, by decide, by decide⟩

/-! ## markCompleted: amended idempotence (C2) -/

/-- The `SET` clause never changes the primary key. -/
theorem markCompletedUpdate_session_id (now : Int) (fd sid : String) (s : Session) :
    (markCompletedUpdate now fd sid s).session_id = s.session_id := by
  unfold markCompletedUpdate
  split <;> rfl

/-- The `SET` clause on a matching row. -/
theorem markCompletedUpdate_of_eq (now : Int) (fd sid : String) (s : Session)
    (h : s.session_id = sid) :
    markCompletedUpdate now fd sid s =
      { s with
        status := .completed
        completed_at := some now
        form_completed_at := some now
        appointment_sent_at := some now
        form_data := fd } := by
  unfold markCompletedUpdate
  rw [if_pos h]

/-- Applying the `SET` clause twice with the same values equals applying it
once. -/
theorem markCompletedUpdate_idem (now : Int) (fd sid : String) (s : Session) :
    markCompletedUpdate now fd sid (markCompletedUpdate now fd sid s)
      = markCompletedUpdate now fd sid s := by
  by_cases h : s.session_id = sid
  · simp [markCompletedUpdate, h]
  · simp [markCompletedUpdate, h]

/-- The whole-table `UPDATE` is idempotent for fixed values. -/
theorem map_markCompletedUpdate_idem (now : Int) (fd sid : String) (l : List Session) :
    (l.map (markCompletedUpdate now fd sid)).map (markCompletedUpdate now fd sid)
      = l.map (markCompletedUpdate now fd sid) := by
  rw [List.map_map]
  apply List.map_congr_left
  intro a _
  exact markCompletedUpdate_idem now fd sid a

/-- When a row with the session id exists, `markCompleted` returns `ok` with
the updated table. -/
theorem markCompleted_found (now : Int) (sid fd : String) (st : Store)
    (h : ∃ s ∈ st.sessions, s.session_id = sid) :
    ∃ s1, findSession (st.sessions.map (markCompletedUpdate now fd sid)) sid = some s1
      ∧ markCompleted now sid fd st
          = .ok (s1, { st with sessions := st.sessions.map (markCompletedUpdate now fd sid) }) := by
  obtain ⟨s0, hmem, hid⟩ := h
  have hsome : (findSession (st.sessions.map (markCompletedUpdate now fd sid)) sid).isSome := by
    rw [findSession, List.find?_isSome]
    exact ⟨markCompletedUpdate now fd sid s0, List.mem_map_of_mem _ hmem,
      by simp [markCompletedUpdate_session_id, hid]⟩
  obtain ⟨s1, hs1⟩ := Option.isSome_iff_exists.mp hsome
  refine ⟨s1, hs1, ?_⟩
  unfold markCompleted
  dsimp only
  rw [hs1]

/-- C2 amended.  `markCompleted` called twice on a present session id is not
an error: both calls return `ok`, the session ends `'completed'`, but the
three timestamps are overwritten with the second call's time — they equal the
once-call result only when both calls carry the same timestamp (and form
data), in which case the persisted store is bit-for-bit the same.  It fails
(with `'Session not found'`) exactly when no session has the id. -/
theorem markCompleted_amended :
    (∀ (st : Store) (sid fd fd' : String) (t1 t2 : Int),
      (∃ s ∈ st.sessions, s.session_id = sid) →
      ∃ s1 st1 s2 st2,
        markCompleted t1 sid fd st = .ok (s1, st1)
        ∧ markCompleted t2 sid fd' st1 = .ok (s2, st2)
        ∧ s2.status = .completed
        ∧ s2.completed_at = some t2
        ∧ s2.form_completed_at = some t2
        ∧ s2.appointment_sent_at = some t2
        ∧ (t1 = t2 → fd = fd' → st2 = st1 ∧ s2 = s1))
    ∧ (∀ (st : Store) (sid fd : String) (t : Int),
        (∀ s ∈ st.sessions, s.session_id ≠ sid) →
        markCompleted t sid fd st = .error "Session not found") := by
  constructor
  · intro st sid fd fd' t1 t2 hex
    obtain ⟨s1, hfind1, hok1⟩ := markCompleted_found t1 sid fd st hex
    have hmem1 : s1 ∈ st.sessions.map (markCompletedUpdate t1 fd sid) :=
      List.mem_of_find?_eq_some hfind1
    have hid1 : s1.session_id = sid := by
      have h2 := List.find?_some hfind1
      simpa using h2
    obtain ⟨s2, hfind2, hok2⟩ :=
      markCompleted_found t2 sid fd'
        { st with sessions := st.sessions.map (markCompletedUpdate t1 fd sid) }
        ⟨s1, hmem1, hid1⟩
    obtain ⟨x, hx, hxeq⟩ := List.mem_map.mp (List.mem_of_find?_eq_some hfind2)
    have hxid : x.session_id = sid := by
      have h2 := List.find?_some hfind2
      rw [← hxeq, markCompletedUpdate_session_id] at h2
      simpa using h2
    have hs2 : s2 =
        { x with
          status := .completed
          completed_at := some t2
          form_completed_at := some t2
          appointment_sent_at := some t2
          form_data := fd' } := by
      rw [← hxeq, markCompletedUpdate_of_eq _ _ _ _ hxid]
    refine ⟨s1, _, s2, _, hok1, hok2, by rw [hs2], by rw [hs2], by rw [hs2], by rw [hs2], ?_⟩
    intro ht hfd
    subst ht
    subst hfd
    have hmapidem := map_markCompletedUpdate_idem t1 fd sid st.sessions
    constructor
    · simp only [hmapidem]
    · dsimp only at hfind2
      rw [hmapidem, hfind1] at hfind2
      exact (Option.some.inj hfind2).symm
  · intro st sid fd t hall
    unfold markCompleted
    dsimp only
    have hnone : findSession (st.sessions.map (markCompletedUpdate t fd sid)) sid = none := by
      rw [findSession, List.find?_eq_none]
      intro x hx
      obtain ⟨y, hy, rfl⟩ := List.mem_map.mp hx
      simp [markCompletedUpdate_session_id, hall y hy]
    rw [hnone]

/-- C2 amended witness: concrete double call on `c2Store`. -/
theorem markCompleted_amended_witness :
    (∃ s1 st1 s2 st2,
        markCompleted 100 "s1" "{}" c2Store = .ok (s1, st1)
        ∧ markCompleted 200 "s1" "{}" st1 = .ok (s2, st2)
        ∧ s2.status = .completed
        ∧ s2.completed_at = some 200
        ∧ s2.form_completed_at = some 200
        ∧ s2.appointment_sent_at = some 200
        ∧ ((100 : Int) = 200 → "{}" = "{}" → st2 = st1 ∧ s2 = s1))
      ∧ markCompleted 300 "s2" "{}" c2Store = .error "Session not found" :=
  ⟨markCompleted_amended.1 c2Store "s1" "{}" "{}" 100 200 (by decide),
   markCompleted_amended.2 c2Store "s2" "{}" 300 (by decide)⟩

/-! ## Cancellation completeness (C8) -/

/-- `find?` by id commutes with the cancel-row map. -/
theorem findMsg_cancelMap (l : List ScheduledMessage) (j i : Nat) :
    findMsg (l.map fun m' => if m'.id = j then { m' with status := MsgStatus.cancelled } else m') i
      = (findMsg l i).map
          fun m' => if m'.id = j then { m' with status := MsgStatus.cancelled } else m' := by
  rw [findMsg, List.find?_map, findMsg]
  have hpf : ((fun m : ScheduledMessage => decide (m.id = i))
        ∘ fun m' => if m'.id = j then { m' with status := MsgStatus.cancelled } else m')
      = fun m : ScheduledMessage => decide (m.id = i) := by
    funext m
    by_cases h : m.id = j <;> simp [Function.comp, h]
  rw [hpf]

/-- The row invariant carried through the cancellation folds: the row with id
`i` exists, owns session `sid0`, and is pending or already cancelled. -/
def rowInv (i : Nat) (sid0 : String) (st : Store) : Prop :=
  ∃ m', findMsg st.messages i = some m' ∧ m'.session_id = sid0
    ∧ (m'.status = .pending ∨ m'.status = .cancelled)

/-- The row with id `i` exists and is cancelled. -/
def rowCancelled (i : Nat) (st : Store) : Prop :=
  ∃ m', findMsg st.messages i = some m' ∧ m'.status = .cancelled

/-- `cancelScheduledMessage` preserves the row invariant. -/
theorem rowInv_cancelOne (j i : Nat) (sid0 : String) (st : Store)
    (h : rowInv i sid0 st) : rowInv i sid0 (cancelScheduledMessage j st).2 := by
  obtain ⟨m', hf, hsid, hst⟩ := h
  unfold cancelScheduledMessage
  cases hj : findMsg st.messages j with
  | none => exact ⟨m', hf, hsid, hst⟩
  | some mj =>
    dsimp only
    by_cases hp : mj.status ≠ MsgStatus.pending
    · rw [if_pos hp]
      exact ⟨m', hf, hsid, hst⟩
    · rw [if_neg hp]
      refine ⟨if m'.id = j then { m' with status := MsgStatus.cancelled } else m', ?_, ?_, ?_⟩
      · rw [show (({ st with
            messages := st.messages.map fun m' =>
              if m'.id = j then { m' with status := MsgStatus.cancelled } else m' } : Store)).messages
          = st.messages.map fun m' =>
              if m'.id = j then { m' with status := MsgStatus.cancelled } else m' from rfl]
        rw [findMsg_cancelMap, hf]
        rfl
      · split <;> simp [hsid]
      · split
        · simp
        · exact hst

/-- A cancelled row stays cancelled across `cancelScheduledMessage`. -/
theorem rowCancelled_cancelOne (j i : Nat) (st : Store)
    (h : rowCancelled i st) : rowCancelled i (cancelScheduledMessage j st).2 := by
  obtain ⟨m', hf, hc⟩ := h
  unfold cancelScheduledMessage
  cases hj : findMsg st.messages j with
  | none => exact ⟨m', hf, hc⟩
  | some mj =>
    dsimp only
    by_cases hp : mj.status ≠ MsgStatus.pending
    · rw [if_pos hp]
      exact ⟨m', hf, hc⟩
    · rw [if_neg hp]
      refine ⟨if m'.id = j then { m' with status := MsgStatus.cancelled } else m', ?_, ?_⟩
      · rw [show (({ st with
            messages := st.messages.map fun m' =>
              if m'.id = j then { m' with status := MsgStatus.cancelled } else m' } : Store)).messages
          = st.messages.map fun m' =>
              if m'.id = j then { m' with status := MsgStatus.cancelled } else m' from rfl]
        rw [findMsg_cancelMap, hf]
        rfl
      · split
        · simp
        · exact hc

/-- The store component of the counting fold inside `cancelSessionMessages`. -/
theorem cancelFold_pair_store (ids : List Nat) :
    ∀ acc : Nat × Store,
      (ids.foldl
        (fun acc i =>
          let r := cancelScheduledMessage i acc.2
          (if r.1 then acc.1 + 1 else acc.1, r.2))
        acc).2
      = ids.foldl (fun s i => (cancelScheduledMessage i s).2) acc.2 := by
  induction ids with
  | nil => intro acc; rfl
  | cons j rest ih =>
    intro acc
    rw [List.foldl_cons, List.foldl_cons, ih]

/-- A cancelled row stays cancelled across a fold of cancellations. -/
theorem rowCancelled_cancelFold (ids : List Nat) :
    ∀ (st : Store) (i : Nat), rowCancelled i st →
      rowCancelled i (ids.foldl (fun s j => (cancelScheduledMessage j s).2) st) := by
  induction ids with
  | nil => intro st i h; exact h
  | cons j rest ih =>
    intro st i h
    rw [List.foldl_cons]
    exact ih _ i (rowCancelled_cancelOne j i st h)

/-- The row invariant is preserved by a fold of cancellations. -/
theorem rowInv_cancelFold (ids : List Nat) :
    ∀ (st : Store) (i : Nat) (sid0 : String), rowInv i sid0 st →
      rowInv i sid0 (ids.foldl (fun s j => (cancelScheduledMessage j s).2) st) := by
  induction ids with
  | nil => intro st i sid0 h; exact h
  | cons j rest ih =>
    intro st i sid0 h
    rw [List.foldl_cons]
    exact ih _ i sid0 (rowInv_cancelOne j i sid0 st h)

/-- A fold of cancellations whose id list contains the row's id leaves the
row cancelled. -/
theorem cancelFold_cancels (ids : List Nat) :
    ∀ (st : Store) (i : Nat) (sid0 : String), i ∈ ids → rowInv i sid0 st →
      rowCancelled i (ids.foldl (fun s j => (cancelScheduledMessage j s).2) st) := by
  induction ids with
  | nil => intro st i sid0 hmem; exact absurd hmem (List.not_mem_nil i)
  | cons j rest ih =>
    intro st i sid0 hmem hinv
    rw [List.foldl_cons]
    by_cases hij : i = j
    · subst hij
      obtain ⟨m', hf, hsid, hst⟩ := hinv
      rcases hst with hp | hc
      · -- the pending row is cancelled right here, and stays cancelled
        apply rowCancelled_cancelFold
        have hid : m'.id = i := by simpa using List.find?_some hf
        unfold cancelScheduledMessage
        rw [hf]
        dsimp only
        rw [if_neg (by simp [hp])]
        refine ⟨{ m' with status := MsgStatus.cancelled }, ?_, rfl⟩
        rw [show (({ st with
              messages := st.messages.map fun m'' =>
                if m''.id = i then { m'' with status := MsgStatus.cancelled } else m'' } : Store)).messages
            = st.messages.map fun m'' =>
                if m''.id = i then { m'' with status := MsgStatus.cancelled } else m'' from rfl]
        rw [findMsg_cancelMap, hf]
        simp [hid]
      · apply rowCancelled_cancelFold
        exact rowCancelled_cancelOne i i st ⟨m', hf, hc⟩
    · exact ih _ i sid0 (by simpa [hij] using hmem) (rowInv_cancelOne j i sid0 st hinv)

/-- `cancelSessionMessages` is the fold of single cancellations over the
selected ids. -/
theorem cancelSessionMessages_store (sid : String) (pat : LikePattern) (st : Store) :
    (cancelSessionMessages sid pat st).2 =
      ((st.messages.filter fun m =>
          m.session_id = sid && m.status = MsgStatus.pending
            && likeMatch pat m.message_type).map (·.id)).foldl
        (fun s j => (cancelScheduledMessage j s).2) st := by
  unfold cancelSessionMessages
  rw [cancelFold_pair_store]

/-- The row invariant is preserved by `cancelSessionMessages`. -/
theorem rowInv_cancelSessionMessages (sid : String) (pat : LikePattern) (st : Store)
    (i : Nat) (sid0 : String) (h : rowInv i sid0 st) :
    rowInv i sid0 (cancelSessionMessages sid pat st).2 := by
  rw [cancelSessionMessages_store]
  exact rowInv_cancelFold _ _ _ _ h

/-- A cancelled row stays cancelled across `cancelSessionMessages`. -/
theorem rowCancelled_cancelSessionMessages (sid : String) (pat : LikePattern) (st : Store)
    (i : Nat) (h : rowCancelled i st) :
    rowCancelled i (cancelSessionMessages sid pat st).2 := by
  rw [cancelSessionMessages_store]
  exact rowCancelled_cancelFold _ _ _ h

/-- `cancelSessionMessages` with the match-all pattern cancels every pending
row of the session. -/
theorem cancelSessionMessages_all_cancels (sid0 : String) (st : Store) (i : Nat)
    (h : rowInv i sid0 st) :
    rowCancelled i (cancelSessionMessages sid0 .all st).2 := by
  obtain ⟨m', hf, hsid, hst⟩ := h
  rw [cancelSessionMessages_store]
  rcases hst with hp | hc
  · apply cancelFold_cancels _ _ _ sid0 ?_ ⟨m', hf, hsid, Or.inl hp⟩
    apply List.mem_map.mpr
    refine ⟨m', List.mem_filter.mpr ⟨List.mem_of_find?_eq_some hf, ?_⟩, ?_⟩
    · simp [hsid, hp, likeMatch]
    · simpa using List.find?_some hf
  · exact rowCancelled_cancelFold _ _ _ ⟨m', hf, hc⟩

/-- C8.  After `cancelSessionMessages(sessionId, '%')` completes, any job of
that session whose persisted status was `'pending'` at cancellation time is
marked `'cancelled'`, and the Delivery Worker's pre-send recheck skips it
without sending and without touching the store. -/
theorem cancelByFilter_then_worker_skips (st : Store) (sid : String) (i : Nat)
    (m : ScheduledMessage)
    (hf : findMsg st.messages i = some m)
    (hsid : m.session_id = sid)
    (hp : m.status = .pending) :
    ∃ m', findMsg (cancelSessionMessages sid .all st).2.messages i = some m'
      ∧ m'.status = .cancelled
      ∧ processScheduledMessage i (cancelSessionMessages sid .all st).2
          = (.skippedCancelled, (cancelSessionMessages sid .all st).2) := by
  obtain ⟨m', hf', hc⟩ :=
    cancelSessionMessages_all_cancels sid st i ⟨m, hf, hsid, Or.inl hp⟩
  refine ⟨m', hf', hc, ?_⟩
  unfold processScheduledMessage
  rw [hf']
  dsimp only
  rw [if_pos hc]

/-- The store of the C8 witness: one pending appointment reminder. -/
def c8Store : Store :=
  ⟨[], [{ id := 7, session_id := "s8", message_type := .appointment_reminder_1,
          status := .pending }]⟩

/-- C8 witness: on the concrete one-job store, cancelling by session id with
the match-all pattern cancels the job and the worker then skips it. -/
theorem cancelByFilter_then_worker_skips_witness :
    ∃ m', findMsg (cancelSessionMessages "s8" .all c8Store).2.messages 7 = some m'
      ∧ m'.status = .cancelled
      ∧ processScheduledMessage 7 (cancelSessionMessages "s8" .all c8Store).2
          = (.skippedCancelled, (cancelSessionMessages "s8" .all c8Store).2) :=
  cancelByFilter_then_worker_skips c8Store "s8" 7
    { id := 7, session_id := "s8", message_type := .appointment_reminder_1,
      status := .pending }
    (by decide) (by decide) (by decide)

/-! ## createSession: at most one active session per recipient (C3) -/

/-- `cancelScheduledMessage` touches only the message table. -/
theorem cancelScheduledMessage_sessions (j : Nat) (st : Store) :
    ((cancelScheduledMessage j st).2).sessions = st.sessions := by
  unfold cancelScheduledMessage
  cases hj : findMsg st.messages j with
  | none => rfl
  | some mj =>
    dsimp only
    split <;> rfl

/-- A fold of single cancellations touches only the message table. -/
theorem cancelFold_sessions (ids : List Nat) :
    ∀ st : Store,
      ((ids.foldl (fun s j => (cancelScheduledMessage j s).2) st)).sessions = st.sessions := by
  induction ids with
  | nil => intro st; rfl
  | cons j rest ih =>
    intro st
    rw [List.foldl_cons, ih, cancelScheduledMessage_sessions]

/-- `cancelSessionMessages` touches only the message table. -/
theorem cancelSessionMessages_sessions (sid : String) (pat : LikePattern) (st : Store) :
    ((cancelSessionMessages sid pat st).2).sessions = st.sessions := by
  rw [cancelSessionMessages_store]
  exact cancelFold_sessions _ _

/-- Cancelling several sessions' messages touches only the message table. -/
theorem sessFold_sessions (sids : List String) :
    ∀ st : Store,
      ((sids.foldl (fun s sid => (cancelSessionMessages sid .all s).2) st)).sessions
        = st.sessions := by
  induction sids with
  | nil => intro st; rfl
  | cons sid rest ih =>
    intro st
    rw [List.foldl_cons, ih, cancelSessionMessages_sessions]

/-- The number of 'active' rows of a recipient. -/
def countActive (p : String) (l : List Session) : Nat :=
  l.countP fun s => s.phone_number = p && s.status = SessStatus.active

/-- The Session Store invariant: at most one active session per recipient. -/
def atMostOneActive (st : Store) : Prop := ∀ p, countActive p st.sessions ≤ 1

/-- The session table after `createSession`: prior rows through the expiry
update, then the fresh row. -/
theorem createSession_sessions (inp : CreateInput) (st : Store) :
    (createSession inp st).sessions =
      st.sessions.map (expireUpdate inp.phone) ++ [newSessionRecord inp] := by
  unfold createSession
  dsimp only
  rw [sessFold_sessions]

/-- After the expiry update no row of the recipient is active. -/
theorem countActive_expireUpdate_self (phone : String) (l : List Session) :
    countActive phone (l.map (expireUpdate phone)) = 0 := by
  rw [countActive, List.countP_eq_zero]
  intro a ha
  obtain ⟨x, hx, rfl⟩ := List.mem_map.mp ha
  unfold expireUpdate
  split
  · simp
  · rename_i hcond
    simp only [Bool.and_eq_true, decide_eq_true_eq] at hcond ⊢
    intro hcc
    exact hcond ⟨by simp [hcc.1], by simp [hcc.2]⟩

/-- The expiry update leaves other recipients' active counts unchanged. -/
theorem countActive_expireUpdate_other (phone p : String) (l : List Session)
    (h : p ≠ phone) :
    countActive p (l.map (expireUpdate phone)) = countActive p l := by
  rw [countActive, countActive, List.countP_map]
  apply List.countP_congr
  intro a _
  unfold expireUpdate
  simp only [Function.comp]
  split
  · rename_i hcond
    simp only [Bool.and_eq_true, decide_eq_true_eq] at hcond
    have hpa : a.phone_number ≠ p := by
      rw [hcond.1]
      exact fun hq => h hq.symm
    simp [hpa]
  · rfl

/-- `createSession` leaves exactly one active session for the recipient and
changes no other recipient's count. -/
theorem createSession_countActive (inp : CreateInput) (st : Store) (p : String) :
    countActive p (createSession inp st).sessions
      = if p = inp.phone then 1 else countActive p st.sessions := by
  rw [createSession_sessions]
  rw [countActive, List.countP_append]
  by_cases hp : p = inp.phone
  · rw [if_pos hp]
    subst hp
    rw [show (st.sessions.map (expireUpdate inp.phone)).countP
          (fun s => s.phone_number = inp.phone && s.status = SessStatus.active)
        = countActive inp.phone (st.sessions.map (expireUpdate inp.phone)) from rfl]
    rw [countActive_expireUpdate_self]
    simp [newSessionRecord, List.countP_cons]
  · rw [if_neg hp]
    rw [show (st.sessions.map (expireUpdate inp.phone)).countP
          (fun s => s.phone_number = p && s.status = SessStatus.active)
        = countActive p (st.sessions.map (expireUpdate inp.phone)) from rfl]
    rw [countActive_expireUpdate_other inp.phone p st.sessions hp]
    have : ([newSessionRecord inp].countP
        (fun s => s.phone_number = p && s.status = SessStatus.active)) = 0 := by
      simp [newSessionRecord, List.countP_cons, hp]
      intro hc
      exact absurd hc.symm (by simpa using hp)
    rw [this, countActive]
    omega

/-- `createSession` preserves the at-most-one-active invariant. -/
theorem createSession_preserves_inv (inp : CreateInput) (st : Store)
    (h : atMostOneActive st) : atMostOneActive (createSession inp st) := by
  intro p
  rw [createSession_countActive]
  split
  · exact le_refl 1
  · exact h p

/-- Any sequence of `createSession` calls preserves the invariant. -/
theorem runCreates_inv (calls : List CreateInput) :
    ∀ st : Store, atMostOneActive st →
      atMostOneActive (calls.foldl (fun st inp => createSession inp st) st) := by
  induction calls with
  | nil => intro st h; exact h
  | cons c rest ih =>
    intro st h
    rw [List.foldl_cons]
    exact ih _ (createSession_preserves_inv c st h)

/-- A cancelled row stays cancelled across per-session cancellations. -/
theorem rowCancelled_sessFold (sids : List String) :
    ∀ (st : Store) (i : Nat), rowCancelled i st →
      rowCancelled i (sids.foldl (fun s sid => (cancelSessionMessages sid .all s).2) st) := by
  induction sids with
  | nil => intro st i h; exact h
  | cons sid rest ih =>
    intro st i h
    rw [List.foldl_cons]
    exact ih _ i (rowCancelled_cancelSessionMessages sid .all st i h)

/-- Folding per-session cancellation over a list of session ids containing
the row's owner cancels the pending row. -/
theorem sessFold_cancels (sids : List String) :
    ∀ (st : Store) (i : Nat) (sid0 : String), sid0 ∈ sids → rowInv i sid0 st →
      rowCancelled i (sids.foldl (fun s sid => (cancelSessionMessages sid .all s).2) st) := by
  induction sids with
  | nil => intro st i sid0 hmem; exact absurd hmem (List.not_mem_nil sid0)
  | cons sid rest ih =>
    intro st i sid0 hmem hinv
    rw [List.foldl_cons]
    by_cases hss : sid0 = sid
    · subst hss
      exact rowCancelled_sessFold rest _ i (cancelSessionMessages_all_cancels sid0 st i hinv)
    · exact ih _ i sid0 (by simpa [hss] using hmem)
        (rowInv_cancelSessionMessages sid .all st i sid0 hinv)

/-- C3.  (a) After any sequence of `createSession` calls from the empty
store, at most one 'active' session exists per recipient.  (b) In the store
produced by one `createSession`, the only possibly-active session of that
recipient is the freshly inserted one — every prior active session was
expired inside the same transaction.  (c) Every job that was pending for a
prior active session of that recipient is 'cancelled' in the produced
store. -/
theorem createSession_unique_active :
    (∀ calls : List CreateInput,
      atMostOneActive (calls.foldl (fun st inp => createSession inp st) Store.empty))
    ∧ (∀ (st : Store) (inp : CreateInput) (s : Session),
        s ∈ (createSession inp st).sessions → s.phone_number = inp.phone →
        s.status = .active → s.session_id = inp.newId)
    ∧ (∀ (st : Store) (inp : CreateInput) (i : Nat) (m : ScheduledMessage) (sOld : Session),
        findMsg st.messages i = some m → m.status = .pending →
        sOld ∈ st.sessions → sOld.status = .active → sOld.phone_number = inp.phone →
        m.session_id = sOld.session_id →
        ∃ m', findMsg (createSession inp st).messages i = some m'
          ∧ m'.status = .cancelled) := by
  refine ⟨?_, ?_, ?_⟩
  · intro calls
    apply runCreates_inv
    intro p
    simp [countActive, Store.empty]
  · intro st inp s hmem hphone hact
    rw [createSession_sessions] at hmem
    rcases List.mem_append.mp hmem with hin | hin
    · exfalso
      obtain ⟨x, hx, rfl⟩ := List.mem_map.mp hin
      by_cases hc : (x.phone_number = inp.phone && x.status = SessStatus.active) = true
      · rw [expireUpdate, if_pos hc] at hact
        exact absurd hact (by simp)
      · rw [expireUpdate, if_neg hc] at hphone hact
        exact hc (by simp [hphone, hact])
    · have hs : s = newSessionRecord inp := by simpa using hin
      rw [hs]
      rfl
  · intro st inp i m sOld hf hp hmem hact hphone hms
    have hsidmem : sOld.session_id ∈
        (st.sessions.filter fun s =>
          s.phone_number = inp.phone && s.status = SessStatus.active).map (·.session_id) :=
      List.mem_map.mpr ⟨sOld, List.mem_filter.mpr ⟨hmem, by simp [hphone, hact]⟩, rfl⟩
    obtain ⟨m', hfm, hcm⟩ :=
      sessFold_cancels _ st i sOld.session_id hsidmem ⟨m, hf, hms, Or.inl hp⟩
    exact ⟨m', hfm, hcm⟩

/-- A prior active session of the C3 witness recipient. -/
def c3Session : Session :=
  { session_id := "sA"
    phone_number := "972500000002"
    chat_id := none
    status := .active
    created_at := 0
    expires_at := 86400000
    completed_at := none
    form_sent_at := some 0
    form_completed_at := none
    appointment_sent_at := none
    appointment_scheduled_at := none
    form_data := "{}" }

/-- A pending job of that prior session. -/
def c3Msg : ScheduledMessage :=
  { id := 3, session_id := "sA", message_type := .form_reminder_19pm, status := .pending }

/-- The store of the C3 witness. -/
def c3Store : Store := ⟨[c3Session], [c3Msg]⟩

/-- The `createSession` call of the C3 witness. -/
def c3Input : CreateInput :=
  { now := 1000, phone := "972500000002", chatId := none, newId := "s_new" }

/-- C3 witness: the invariant after a concrete call sequence, the identity of
the only active session, and the cancellation of the prior session's job. -/
theorem createSession_unique_active_witness :
    countActive "972500000002"
        (([c3Input].foldl (fun st inp => createSession inp st) Store.empty)).sessions ≤ 1
      ∧ (newSessionRecord c3Input).session_id = c3Input.newId
      ∧ ∃ m', findMsg (createSession c3Input c3Store).messages 3 = some m'
          ∧ m'.status = .cancelled :=
  ⟨createSession_unique_active.1 [c3Input] "972500000002",
   createSession_unique_active.2.1 c3Store c3Input (newSessionRecord c3Input)
     (by decide) (by decide) (by decide),
   createSession_unique_active.2.2 c3Store c3Input 3 c3Msg c3Session
     (by decide) (by decide) (by decide) (by decide) (by decide) (by decide)⟩
